import Mathlib

/-!
Verification development for the voice-sql-generator repository.

The pipeline under study lives in `src/python/auto_analyzer.py`,
`src/python/file_extraction.py` and `src/app.py`.  The regex-based text
transformations are embedded as deterministic scanners over `List Char`
(each regex used by the source is backtracking-free on its alternatives,
which is argued rule by rule in the doc comments below).  Character
classes model Python's `\s` and `\w` over ASCII, which covers every
input the claims quantify over.
-/

/-- Python `\s` over ASCII: space, tab, newline, carriage return,
vertical tab, form feed. -/
def isWsChar (c : Char) : Bool :=
  c = ' ' || c = '\t' || c = '\n' || c = '\r' || c = '\x0b' || c = '\x0c'

/-- Python `\w` over ASCII: letters, digits, underscore. -/
def isWordChar (c : Char) : Bool :=
  ('a' ≤ c && c ≤ 'z') || ('A' ≤ c && c ≤ 'Z') || ('0' ≤ c && c ≤ '9') || c = '_'

/-- ASCII lower-case code point of a character, as a natural number.
Used to model the case-insensitive (`re.IGNORECASE`) matching of the
source's regexes. -/
def lcn (c : Char) : Nat :=
  if 65 ≤ c.toNat && c.toNat ≤ 90 then c.toNat + 32 else c.toNat

/-- Case-insensitive character comparison (ASCII). -/
def ciEq (a b : Char) : Bool := lcn a = lcn b

/-- Greedy span: the longest prefix whose characters satisfy `p`,
paired with the rest. Models `\s*` / maximal `\s+` / maximal `\w+`
consumption in a regex. -/
def spanP (p : Char → Bool) : List Char → (List Char × List Char)
  | [] => ([], [])
  | c :: r =>
    if p c then
      let q := spanP p r
      (c :: q.1, q.2)
    else ([], c :: r)

/-- Case-insensitive literal matching: consume `pat` (case-insensitively)
from the front of the text, returning the rest on success. -/
def matchLit : List Char → List Char → Option (List Char)
  | [], s => some s
  | _ :: _, [] => none
  | pc :: pr, c :: r => if ciEq pc c then matchLit pr r else none

/-- `\s+`: at least one whitespace character, consumed greedily. -/
def wsPlus (s : List Char) : Option (List Char) :=
  let q := spanP isWsChar s
  if q.1 = [] then none else some q.2

/-- `\w+`: at least one word character, consumed greedily; returns the
consumed token and the rest. -/
def wordPlus (s : List Char) : Option (List Char × List Char) :=
  let q := spanP isWordChar s
  if q.1 = [] then none else some q

/-- Consume one exact character. -/
def chompChar (c : Char) : List Char → Option (List Char)
  | [] => none
  | x :: r => if x = c then some r else none

/-- `[^c]*c`: consume characters up to and including the first
occurrence of `c`; fails when `c` is absent. -/
def chompThrough (c : Char) : List Char → Option (List Char)
  | [] => none
  | x :: r => if x = c then some r else chompThrough c r

/-- `head` either empty or starting with a character failing `p`;
used to state that a greedy span stops exactly at a boundary. -/
def headNot (p : Char → Bool) : List Char → Bool
  | [] => true
  | c :: _ => !(p c)

/-- Pairwise case-insensitive equality of two character lists of the
same length: `a` is an input spelling of the literal `pat`. -/
def ciMatches : List Char → List Char → Bool
  | [], [] => true
  | a :: as, b :: bs => ciEq a b && ciMatches as bs
  | _, _ => false

-- ### basic lemmas about the combinators

theorem spanP_append_eq (p : Char → Bool) (s : List Char) :
    (spanP p s).1 ++ (spanP p s).2 = s := by
  induction s with
  | nil => rfl
  | cons c r ih =>
    simp only [spanP]
    by_cases h : p c
    · simp [h, ih]
    · simp [h]

theorem spanP_length (p : Char → Bool) (s : List Char) :
    (spanP p s).1.length + (spanP p s).2.length = s.length := by
  have := congrArg List.length (spanP_append_eq p s)
  simpa using this

theorem spanP_all (p : Char → Bool) (s : List Char) :
    (spanP p s).1.all p = true := by
  induction s with
  | nil => rfl
  | cons c r ih =>
    simp only [spanP]
    by_cases h : p c
    · simp [h, ih]
    · simp [h]

theorem spanP_of_all {p : Char → Bool} {t s : List Char}
    (ht : t.all p = true) (hs : headNot p s = true) :
    spanP p (t ++ s) = (t, s) := by
  induction t with
  | nil =>
    cases s with
    | nil => rfl
    | cons c r =>
      simp only [headNot, Bool.not_eq_true'] at hs
      simp [spanP, hs]
  | cons c t' ih =>
    simp only [List.all_cons, Bool.and_eq_true] at ht
    simp [spanP, ht.1, ih ht.2]

theorem matchLit_length {pat s r : List Char}
    (h : matchLit pat s = some r) : s.length = pat.length + r.length := by
  induction pat generalizing s with
  | nil => simp only [matchLit, Option.some.injEq] at h; simp [← h]
  | cons pc pr ih =>
    cases s with
    | nil => simp [matchLit] at h
    | cons c cs =>
      simp only [matchLit] at h
      by_cases hc : ciEq pc c
      · simp only [hc, if_true] at h
        have := ih h
        simp [this]; omega
      · simp [hc] at h

theorem matchLit_ciMatches {a pat s : List Char}
    (h : ciMatches a pat = true) : matchLit pat (a ++ s) = some s := by
  induction a generalizing pat with
  | nil =>
    cases pat with
    | nil => rfl
    | cons b bs => simp [ciMatches] at h
  | cons c cs ih =>
    cases pat with
    | nil => simp [ciMatches] at h
    | cons b bs =>
      simp only [ciMatches, Bool.and_eq_true] at h
      have hbc : ciEq b c = true := by
        simp only [ciEq, decide_eq_true_eq] at h ⊢
        exact h.1.symm
      simp only [List.cons_append, matchLit, hbc, if_true]
      exact ih h.2

theorem ciMatches_refl (a : List Char) : ciMatches a a = true := by
  induction a with
  | nil => rfl
  | cons c cs ih => simp [ciMatches, ciEq, ih]

theorem matchLit_self (pat s : List Char) : matchLit pat (pat ++ s) = some s :=
  matchLit_ciMatches (ciMatches_refl pat)

theorem wsPlus_length {s r : List Char} (h : wsPlus s = some r) :
    r.length < s.length := by
  simp only [wsPlus] at h
  by_cases hq : (spanP isWsChar s).1 = []
  · simp [hq] at h
  · simp only [hq, if_false, Option.some.injEq] at h
    have hl := spanP_length isWsChar s
    have hp : 0 < (spanP isWsChar s).1.length := List.length_pos.mpr hq
    rw [← h]
    omega

theorem wordPlus_length {s : List Char} {q : List Char × List Char}
    (h : wordPlus s = some q) : q.2.length < s.length := by
  simp only [wordPlus] at h
  by_cases hq : (spanP isWordChar s).1 = []
  · simp [hq] at h
  · simp only [hq, if_false, Option.some.injEq] at h
    have hl := spanP_length isWordChar s
    have hp : 0 < (spanP isWordChar s).1.length := List.length_pos.mpr hq
    rw [← h]
    omega

theorem chompChar_length {c : Char} {s r : List Char}
    (h : chompChar c s = some r) : r.length < s.length := by
  cases s with
  | nil => simp [chompChar] at h
  | cons x xs =>
    simp only [chompChar] at h
    by_cases hx : x = c
    · simp only [hx, if_true, Option.some.injEq] at h
      simp [← h]
    · simp [hx] at h

theorem chompThrough_length {c : Char} {s r : List Char}
    (h : chompThrough c s = some r) : r.length < s.length := by
  induction s with
  | nil => simp [chompThrough] at h
  | cons x xs ih =>
    simp only [chompThrough] at h
    by_cases hx : x = c
    · simp only [hx, if_true, Option.some.injEq] at h
      simp [← h]
    · simp only [hx, if_false] at h
      have := ih h
      simp; omega

theorem wsPlus_of_all {w s : List Char} (hw : w ≠ [])
    (hall : w.all isWsChar = true) (hs : headNot isWsChar s = true) :
    wsPlus (w ++ s) = some s := by
  simp [wsPlus, spanP_of_all hall hs, hw]

theorem wordPlus_of_all {t s : List Char} (ht : t ≠ [])
    (hall : t.all isWordChar = true) (hs : headNot isWordChar s = true) :
    wordPlus (t ++ s) = some (t, s) := by
  simp [wordPlus, spanP_of_all hall hs, ht]

theorem chompThrough_of_all {c : Char} {b s : List Char}
    (hb : b.all (fun x => !(x = c)) = true) :
    chompThrough c (b ++ c :: s) = some s := by
  induction b with
  | nil => simp [chompThrough]
  | cons x xs ih =>
    simp only [List.all_cons, Bool.and_eq_true, Bool.not_eq_true',
      decide_eq_false_iff_not] at hb
    simp only [List.cons_append, chompThrough, hb.1, if_false]
    exact ih (by simpa using hb.2)

theorem ws_not_word {c : Char} (h : isWsChar c = true) :
    isWordChar c = false := by
  simp only [isWsChar, Bool.or_eq_true, decide_eq_true_eq] at h
  rcases h with ((((h | h) | h) | h) | h) | h <;> (subst h; decide)

theorem word_not_ws {c : Char} (h : isWordChar c = true) :
    isWsChar c = false := by
  by_contra hws
  rw [Bool.not_eq_false] at hws
  rw [ws_not_word hws] at h
  exact Bool.false_ne_true h

-- ### the `re.sub` scanning engine

/-- A matcher: tries to recognize one regex match anchored at the head of
the text, returning the rest of the text after the match on success. -/
abbrev Matcher := List Char → Option (List Char)

/-- A matcher shrinks when every successful match consumes at least one
character.  Every pattern used by the source matches only nonempty text. -/
def Shrinks (m : Matcher) : Prop :=
  ∀ s r, m s = some r → r.length < s.length

/-- Fuel-driven core of `re.sub pattern repl text`: scan left to right;
at each position either replace a match and resume after it, or emit the
character and advance by one.  `fuel = text.length` always suffices
because matches are nonempty. -/
def substFuel (m : Matcher) (repl : List Char) : Nat → List Char → List Char
  | _, [] => []
  | 0, s => s
  | f + 1, c :: r =>
    match m (c :: r) with
    | some r2 => repl ++ substFuel m repl f r2
    | none => c :: substFuel m repl f r

/-- `re.sub pattern repl text` with non-overlapping leftmost matches. -/
def subst (m : Matcher) (repl : List Char) (s : List Char) : List Char :=
  substFuel m repl s.length s

/-- Whether the pattern matches anywhere in the text (`re.search`-style). -/
def hasHit (m : Matcher) : List Char → Bool
  | [] => false
  | c :: r => (m (c :: r)).isSome || hasHit m r

/-- No match starts at any position lying inside `p` when the text is
`p ++ rest` (matches may extend past `p` into `rest`). -/
def noHitWithin (m : Matcher) : List Char → List Char → Bool
  | [], _ => true
  | c :: p', rest => !(m (c :: (p' ++ rest))).isSome && noHitWithin m p' rest

theorem substFuel_eq_of_le {m : Matcher} {repl : List Char}
    (hm : Shrinks m) :
    ∀ f g s, s.length ≤ f → s.length ≤ g →
      substFuel m repl f s = substFuel m repl g s := by
  intro f
  induction f with
  | zero =>
    intro g s hf _
    have : s = [] := List.eq_nil_of_length_eq_zero (Nat.le_zero.mp hf)
    subst this
    cases g <;> rfl
  | succ f ih =>
    intro g s hf hg
    cases s with
    | nil => cases g <;> rfl
    | cons c r =>
      cases g with
      | zero => simp at hg
      | succ g =>
        cases hmc : m (c :: r) with
        | some r2 =>
          have hlen := hm _ _ hmc
          simp only [List.length_cons] at hf hg hlen
          simp only [substFuel, hmc]
          rw [ih g r2 (by omega) (by omega)]
        | none =>
          simp only [List.length_cons] at hf hg
          simp only [substFuel, hmc]
          rw [ih g r (by omega) (by omega)]

theorem subst_cons_none {m : Matcher} {repl : List Char} {c : Char}
    {r : List Char} (h : m (c :: r) = none) :
    subst m repl (c :: r) = c :: subst m repl r := by
  simp [subst, substFuel, h]

theorem subst_match {m : Matcher} {repl : List Char} {s r2 : List Char}
    (hm : Shrinks m) (h : m s = some r2) :
    subst m repl s = repl ++ subst m repl r2 := by
  cases s with
  | nil =>
    have := hm _ _ h
    simp at this
  | cons c r =>
    have hlen := hm _ _ h
    simp only [List.length_cons] at hlen
    simp only [subst, List.length_cons, substFuel, h]
    rw [substFuel_eq_of_le hm r.length r2.length r2 (by omega) (le_refl _)]

theorem isSome_false_eq_none {α : Type} {o : Option α}
    (h : o.isSome = false) : o = none := by
  cases o with
  | none => rfl
  | some v => simp at h

theorem subst_nohit_id {m : Matcher} {repl : List Char} {s : List Char}
    (h : hasHit m s = false) : subst m repl s = s := by
  induction s with
  | nil => rfl
  | cons c r ih =>
    simp only [hasHit, Bool.or_eq_false_iff] at h
    rw [subst_cons_none (isSome_false_eq_none h.1), ih h.2]

theorem subst_append_noHit {m : Matcher} {repl : List Char}
    {p rest : List Char} (h : noHitWithin m p rest = true) :
    subst m repl (p ++ rest) = p ++ subst m repl rest := by
  induction p with
  | nil => simp
  | cons c p' ih =>
    simp only [noHitWithin, Bool.and_eq_true, Bool.not_eq_true'] at h
    simp only [List.cons_append]
    rw [subst_cons_none (isSome_false_eq_none h.1), ih h.2]

-- ### helper length lemmas for the concrete matchers

theorem matchLit_lt {pat s r : List Char} (hpat : pat ≠ [])
    (h : matchLit pat s = some r) : r.length < s.length := by
  have hl := matchLit_length h
  have : 0 < pat.length := List.length_pos.mpr hpat
  omega

theorem spanP_snd_le (p : Char → Bool) (s : List Char) :
    (spanP p s).2.length ≤ s.length := by
  have := spanP_length p s
  omega

-- ### the dialect-translation matchers (auto_analyzer.load_sql_schema_into_sqlite)

/-- `ENUM\s*\([^)]*\)` (replaced by `TEXT`).  Deterministic: the greedy
`[^)]*` cannot cross a `)`, so it always stops at the first `)`. -/
def mEnum : Matcher := fun s =>
  match matchLit "ENUM".toList s with
  | none => none
  | some r1 =>
    match chompChar '(' (spanP isWsChar r1).2 with
    | none => none
    | some r2 => chompThrough ')' r2

/-- `AUTO_INCREMENT` (replaced by `AUTOINCREMENT`). -/
def mAutoInc : Matcher := fun s => matchLit "AUTO_INCREMENT".toList s

/-- `INT\s+AUTOINCREMENT\s+PRIMARY\s+KEY`
(replaced by `INTEGER PRIMARY KEY AUTOINCREMENT`).  Deterministic: each
`\s+` is followed by a non-whitespace literal, so it must consume
exactly the maximal whitespace run. -/
def mIntAutoincPK : Matcher := fun s =>
  match matchLit "INT".toList s with
  | none => none
  | some r1 =>
    match wsPlus r1 with
    | none => none
    | some r2 =>
      match matchLit "AUTOINCREMENT".toList r2 with
      | none => none
      | some r3 =>
        match wsPlus r3 with
        | none => none
        | some r4 =>
          match matchLit "PRIMARY".toList r4 with
          | none => none
          | some r5 =>
            match wsPlus r5 with
            | none => none
            | some r6 => matchLit "KEY".toList r6

/-- `\s+UNIQUE(?!\s+KEY)` (removed).  The lookahead is deterministic:
`\s+KEY` inside it can only match when the maximal whitespace run after
`UNIQUE` is followed by `KEY`. -/
def mUniqueCol : Matcher := fun s =>
  match wsPlus s with
  | none => none
  | some r1 =>
    match matchLit "UNIQUE".toList r1 with
    | none => none
    | some r2 =>
      match (match wsPlus r2 with
             | none => none
             | some r3 => matchLit "KEY".toList r3) with
      | some _ => none
      | none => some r2

/-- `ALTER TABLE\s+\w+\s+ADD[^;]*;` (removed). -/
def mAlterAdd : Matcher := fun s =>
  match matchLit "ALTER TABLE".toList s with
  | none => none
  | some r1 =>
    match wsPlus r1 with
    | none => none
    | some r2 =>
      match wordPlus r2 with
      | none => none
      | some q =>
        match wsPlus q.2 with
        | none => none
        | some r3 =>
          match matchLit "ADD".toList r3 with
          | none => none
          | some r4 => chompThrough ';' r4

/-- `CREATE INDEX[^;]*;` (removed). -/
def mCreateIndex : Matcher := fun s =>
  match matchLit "CREATE INDEX".toList s with
  | none => none
  | some r1 => chompThrough ';' r1

/-- Characters allowed by `[^,)]`. -/
def notCP (c : Char) : Bool := !(c = ',' || c = ')')

/-- `,\s*UNIQUE\s+KEY\s+[^,)]*` (removed). -/
def mUniqueKeyClause : Matcher := fun s =>
  match chompChar ',' s with
  | none => none
  | some r1 =>
    match matchLit "UNIQUE".toList (spanP isWsChar r1).2 with
    | none => none
    | some r2 =>
      match wsPlus r2 with
      | none => none
      | some r3 =>
        match matchLit "KEY".toList r3 with
        | none => none
        | some r4 =>
          match wsPlus r4 with
          | none => none
          | some r5 => some (spanP notCP r5).2

/-- `,\s*KEY\s+[^,)]*` (removed). -/
def mKeyClause : Matcher := fun s =>
  match chompChar ',' s with
  | none => none
  | some r1 =>
    match matchLit "KEY".toList (spanP isWsChar r1).2 with
    | none => none
    | some r2 =>
      match wsPlus r2 with
      | none => none
      | some r3 => some (spanP notCP r3).2

/-- `,\s*CONSTRAINT[^,)]*` (removed). -/
def mConstraintClause : Matcher := fun s =>
  match chompChar ',' s with
  | none => none
  | some r1 =>
    match matchLit "CONSTRAINT".toList (spanP isWsChar r1).2 with
    | none => none
    | some r2 => some (spanP notCP r2).2

/-- `re.match(r"\s*(CREATE\s+DATABASE|USE)\s+", line, re.IGNORECASE)`:
the test that drops `CREATE DATABASE` / `USE` lines.  Trying both
alternatives unconditionally is equivalent to the regex's ordered
alternation because their first letters differ. -/
def isDropLine (l : List Char) : Bool :=
  let r := (spanP isWsChar l).2
  (match (match matchLit "CREATE".toList r with
          | none => none
          | some r1 =>
            match wsPlus r1 with
            | none => none
            | some r2 =>
              match matchLit "DATABASE".toList r2 with
              | none => none
              | some r3 => wsPlus r3) with
   | some _ => true
   | none => false)
  ||
  (match (match matchLit "USE".toList r with
          | none => none
          | some r1 => wsPlus r1) with
   | some _ => true
   | none => false)

/-- `f.readlines()`: split text into lines, each keeping its trailing
newline; no empty final line. -/
def splitLinesAux : List Char → List Char → List (List Char)
  | acc, [] => if acc = [] then [] else [acc.reverse]
  | acc, c :: r =>
    if c = '\n' then (acc.reverse ++ ['\n']) :: splitLinesAux [] r
    else splitLinesAux (c :: acc) r

def splitLines (s : List Char) : List (List Char) := splitLinesAux [] s

/-- The four per-line rewrites of `load_sql_schema_into_sqlite`, in
source order: `ENUM(...) → TEXT`, `AUTO_INCREMENT → AUTOINCREMENT`,
`INT AUTOINCREMENT PRIMARY KEY → INTEGER PRIMARY KEY AUTOINCREMENT`,
strip `\s+UNIQUE(?!\s+KEY)`. -/
def cleanLine (l : List Char) : List Char :=
  subst mUniqueCol []
    (subst mIntAutoincPK "INTEGER PRIMARY KEY AUTOINCREMENT".toList
      (subst mAutoInc "AUTOINCREMENT".toList
        (subst mEnum "TEXT".toList l)))

/-- The per-line phase: drop `CREATE DATABASE`/`USE` lines, rewrite the
rest, and re-join (`"".join(cleaned_lines)`). -/
def lineStage (s : List Char) : List Char :=
  List.flatten ((splitLines s).filterMap
    (fun l => if isDropLine l then none else some (cleanLine l)))

/-- The full dialect translation performed by
`load_sql_schema_into_sqlite` before the statement loop: the per-line
phase followed by the five whole-text substitutions, in source order. -/
def dialect_translate (s : List Char) : List Char :=
  subst mConstraintClause []
    (subst mKeyClause []
      (subst mUniqueKeyClause []
        (subst mCreateIndex []
          (subst mAlterAdd [] (lineStage s)))))

-- ### line splitting round-trip and fixed-point lemmas

theorem splitLinesAux_flatten (s : List Char) :
    ∀ acc, List.flatten (splitLinesAux acc s) = acc.reverse ++ s := by
  induction s with
  | nil =>
    intro acc
    by_cases h : acc = []
    · simp [splitLinesAux, h]
    · simp [splitLinesAux, h]
  | cons c r ih =>
    intro acc
    by_cases h : c = '\n'
    · simp only [splitLinesAux, h, if_true, List.flatten_cons, ih []]
      simp
    · simp only [splitLinesAux, h, if_false, ih (c :: acc)]
      simp

theorem splitLines_flatten (s : List Char) :
    List.flatten (splitLines s) = s := by
  simpa using splitLinesAux_flatten s []

/-- All the per-line checks that make the per-line phase a no-op on a
line: the line is kept and none of the four per-line patterns occurs
in it. -/
def lineUntouched (l : List Char) : Bool :=
  !(isDropLine l) && !(hasHit mEnum l) && !(hasHit mAutoInc l) &&
    !(hasHit mIntAutoincPK l) && !(hasHit mUniqueCol l)

/-- No rewrite rule of the translator finds anything in `y`: every line
of `y` is kept and matches no per-line pattern, and none of the five
whole-text patterns occurs in `y`. -/
def noRuleHits (y : List Char) : Bool :=
  (splitLines y).all lineUntouched &&
    !(hasHit mAlterAdd y) && !(hasHit mCreateIndex y) &&
    !(hasHit mUniqueKeyClause y) && !(hasHit mKeyClause y) &&
    !(hasHit mConstraintClause y)

theorem cleanLine_id {l : List Char} (h : lineUntouched l = true) :
    cleanLine l = l := by
  simp only [lineUntouched, Bool.and_eq_true, Bool.not_eq_true'] at h
  unfold cleanLine
  rw [subst_nohit_id h.1.1.1.2, subst_nohit_id h.1.1.2,
    subst_nohit_id h.1.2, subst_nohit_id h.2]

theorem filterMap_keepLines :
    ∀ ls : List (List Char), (∀ l ∈ ls, lineUntouched l = true) →
      ls.filterMap (fun l => if isDropLine l then none else some (cleanLine l)) = ls := by
  intro ls
  induction ls with
  | nil => intro _; rfl
  | cons l ls ih =>
    intro h
    have hl := h l (List.mem_cons_self l ls)
    have hkeep : isDropLine l = false := by
      simp only [lineUntouched, Bool.and_eq_true, Bool.not_eq_true'] at hl
      exact hl.1.1.1.1
    have hrest := ih (fun x hx => h x (List.mem_cons_of_mem _ hx))
    simp [List.filterMap_cons, hkeep, cleanLine_id hl, hrest]

theorem lineStage_id {y : List Char}
    (h : (splitLines y).all lineUntouched = true) : lineStage y = y := by
  unfold lineStage
  rw [List.all_eq_true] at h
  rw [filterMap_keepLines _ h, splitLines_flatten]

theorem dialect_translate_id {y : List Char} (h : noRuleHits y = true) :
    dialect_translate y = y := by
  simp only [noRuleHits, Bool.and_eq_true, Bool.not_eq_true'] at h
  unfold dialect_translate
  rw [lineStage_id h.1.1.1.1.1, subst_nohit_id h.1.1.1.1.2,
    subst_nohit_id h.1.1.1.2, subst_nohit_id h.1.1.2,
    subst_nohit_id h.1.2, subst_nohit_id h.2]

-- ### shrink and evaluation lemmas for the statement-removal matchers

theorem mAlterAdd_shrinks : Shrinks mAlterAdd := by
  intro s r h
  unfold mAlterAdd at h
  cases h1 : matchLit "ALTER TABLE".toList s with
  | none => simp only [h1] at h; exact absurd h (Option.noConfusion ·)
  | some r1 =>
    simp only [h1] at h
    cases h2 : wsPlus r1 with
    | none => simp only [h2] at h; exact absurd h (Option.noConfusion ·)
    | some r2 =>
      simp only [h2] at h
      cases h3 : wordPlus r2 with
      | none => simp only [h3] at h; exact absurd h (Option.noConfusion ·)
      | some q =>
        simp only [h3] at h
        cases h4 : wsPlus q.2 with
        | none => simp only [h4] at h; exact absurd h (Option.noConfusion ·)
        | some r3 =>
          simp only [h4] at h
          cases h5 : matchLit "ADD".toList r3 with
          | none => simp only [h5] at h; exact absurd h (Option.noConfusion ·)
          | some r4 =>
            simp only [h5] at h
            have l1 := matchLit_lt (by decide) h1
            have l2 := wsPlus_length h2
            have l3 := wordPlus_length h3
            have l4 := wsPlus_length h4
            have l5 := matchLit_lt (by decide) h5
            have l6 := chompThrough_length h
            omega

theorem mCreateIndex_shrinks : Shrinks mCreateIndex := by
  intro s r h
  unfold mCreateIndex at h
  cases h1 : matchLit "CREATE INDEX".toList s with
  | none => simp only [h1] at h; exact absurd h (Option.noConfusion ·)
  | some r1 =>
    simp only [h1] at h
    have l1 := matchLit_lt (by decide) h1
    have l2 := chompThrough_length h
    omega

theorem ws_lcn_lt {x : Char} (h : isWsChar x = true) : lcn x < 33 := by
  simp only [isWsChar, Bool.or_eq_true, decide_eq_true_eq] at h
  rcases h with ((((h | h) | h) | h) | h) | h <;> (subst h; decide)

theorem not_ws_of_ciEq_letter {x c : Char} (h : ciEq x c = true)
    (hc : 97 ≤ lcn c) : isWsChar x = false := by
  by_contra hws
  rw [Bool.not_eq_false] at hws
  have := ws_lcn_lt hws
  simp only [ciEq, decide_eq_true_eq] at h
  omega

theorem headNot_ws_of_word {t : List Char} (ht : t ≠ [])
    (hta : t.all isWordChar = true) (z : List Char) :
    headNot isWsChar (t ++ z) = true := by
  cases t with
  | nil => exact absurd rfl ht
  | cons c t' =>
    simp only [List.all_cons, Bool.and_eq_true] at hta
    simp [headNot, word_not_ws hta.1]

theorem headNot_word_of_ws {w : List Char} (hw : w ≠ [])
    (hwa : w.all isWsChar = true) (z : List Char) :
    headNot isWordChar (w ++ z) = true := by
  cases w with
  | nil => exact absurd rfl hw
  | cons c w' =>
    simp only [List.all_cons, Bool.and_eq_true] at hwa
    simp [headNot, ws_not_word hwa.1]

theorem headNot_ws_of_ciMatches {d : List Char} {c : Char} {pat : List Char}
    (h : ciMatches d (c :: pat) = true) (hc : 97 ≤ lcn c) (z : List Char) :
    headNot isWsChar (d ++ z) = true := by
  cases d with
  | nil => simp [ciMatches] at h
  | cons x xs =>
    simp only [ciMatches, Bool.and_eq_true] at h
    simp [headNot, not_ws_of_ciEq_letter h.1 hc]

/-- Evaluation of the `ALTER TABLE \w+ ADD [^;]*;` matcher on a cleanly
decomposed statement. -/
theorem mAlterAdd_eval {a w1 t w2 d b s : List Char}
    (ha : ciMatches a "ALTER TABLE".toList = true)
    (hw1 : w1 ≠ []) (hw1a : w1.all isWsChar = true)
    (ht : t ≠ []) (hta : t.all isWordChar = true)
    (hw2 : w2 ≠ []) (hw2a : w2.all isWsChar = true)
    (hd : ciMatches d "ADD".toList = true)
    (hb : b.all (fun x => !(x = ';')) = true) :
    mAlterAdd (a ++ (w1 ++ (t ++ (w2 ++ (d ++ (b ++ ';' :: s)))))) = some s := by
  have h1 := matchLit_ciMatches (s := w1 ++ (t ++ (w2 ++ (d ++ (b ++ ';' :: s))))) ha
  have h2 := wsPlus_of_all hw1 hw1a
    (headNot_ws_of_word ht hta (w2 ++ (d ++ (b ++ ';' :: s))))
  have h3 := wordPlus_of_all ht hta
    (headNot_word_of_ws hw2 hw2a (d ++ (b ++ ';' :: s)))
  have h4 := wsPlus_of_all hw2 hw2a
    (headNot_ws_of_ciMatches (c := 'A') hd (by decide) (b ++ ';' :: s))
  have h5 := matchLit_ciMatches (s := b ++ ';' :: s) hd
  have h6 := chompThrough_of_all (c := ';') (s := s) hb
  unfold mAlterAdd
  simp only [h1, h2, h3, h4, h5, h6]

/-- Evaluation of the `CREATE INDEX [^;]*;` matcher on a cleanly
decomposed statement. -/
theorem mCreateIndex_eval {a b s : List Char}
    (ha : ciMatches a "CREATE INDEX".toList = true)
    (hb : b.all (fun x => !(x = ';')) = true) :
    mCreateIndex (a ++ (b ++ ';' :: s)) = some s := by
  have h1 := matchLit_ciMatches (s := b ++ ';' :: s) ha
  have h2 := chompThrough_of_all (c := ';') (s := s) hb
  unfold mCreateIndex
  simp only [h1, h2]

-- ### table-name inference (auto_analyzer.infer_table_name_from_sql)

/-- One anchored attempt of the regex
`CREATE TABLE\s+(?:IF NOT EXISTS\s+)?(\w+)`, returning the captured
group.  The only backtracking in the regex is dropping the optional
`IF NOT EXISTS\s+` group when the rest of the pattern fails after it,
which the fallback branch reproduces (a shorter `\w+` or `\s+` can never
help, as each is followed by a token of a disjoint character class). -/
def tryCreateTable (s : List Char) : Option (List Char) :=
  match matchLit "CREATE TABLE".toList s with
  | none => none
  | some r1 =>
    match wsPlus r1 with
    | none => none
    | some r2 =>
      match (match matchLit "IF NOT EXISTS".toList r2 with
             | none => none
             | some r3 =>
               match wsPlus r3 with
               | none => none
               | some r4 => wordPlus r4) with
      | some q => some q.1
      | none =>
        match wordPlus r2 with
        | none => none
        | some q => some q.1

/-- `re.search`: leftmost match of the table-name pattern. -/
def searchCT : List Char → Option (List Char)
  | [] => none
  | c :: r =>
    match tryCreateTable (c :: r) with
    | some t => some t
    | none => searchCT r

/-- `infer_table_name_from_sql`: group 1 of the first `CREATE TABLE`
match, or the fixed default. -/
def infer_table_name_from_sql (sql_text : String) : String :=
  match searchCT sql_text.toList with
  | some t => String.mk t
  | none => "uploaded_table"

/-- No attempt of the table-name pattern succeeds at a position inside
`p` when the text continues with `rest`. -/
def noCTWithin : List Char → List Char → Bool
  | [], _ => true
  | c :: p', rest =>
    !(tryCreateTable (c :: (p' ++ rest))).isSome && noCTWithin p' rest

-- ### schema extraction (file_extraction.extract_sql)

/-- Lazy `(.*?)\);` with `re.DOTALL`: the body runs up to the first
occurrence of the two-character sequence `);`, which is then consumed. -/
def bodyUpTo : List Char → Option (List Char × List Char)
  | [] => none
  | ')' :: ';' :: r => some ([], r)
  | c :: r =>
    match bodyUpTo r with
    | none => none
    | some q => some (c :: q.1, q.2)

/-- The `(\w+)\s*\((.*?)\);` tail of the `extract_sql` pattern starting
from a given point: captured name, captured body, rest after `);`. -/
def ctNameBody (r : List Char) : Option (List Char × List Char × List Char) :=
  match wordPlus r with
  | none => none
  | some q =>
    match chompChar '(' (spanP isWsChar q.2).2 with
    | none => none
    | some r5 =>
      match bodyUpTo r5 with
      | none => none
      | some b => some (q.1, b.1, b.2)

/-- One anchored attempt of the full `extract_sql` pattern
`CREATE TABLE\s+(?:IF NOT EXISTS\s+)?(\w+)\s*\((.*?)\);`
(`re.IGNORECASE | re.DOTALL`).  As in `tryCreateTable`, the only
effective backtracking is dropping the optional group. -/
def tryCreateTableFull (s : List Char) :
    Option (List Char × List Char × List Char) :=
  match matchLit "CREATE TABLE".toList s with
  | none => none
  | some r1 =>
    match wsPlus r1 with
    | none => none
    | some r2 =>
      match (match matchLit "IF NOT EXISTS".toList r2 with
             | none => none
             | some r3 =>
               match wsPlus r3 with
               | none => none
               | some r4 => ctNameBody r4) with
      | some v => some v
      | none => ctNameBody r2

/-- `re.findall` of the `CREATE TABLE` pattern: leftmost,
non-overlapping matches, each contributing (name, body). -/
def findCTFuel : Nat → List Char → List (List Char × List Char)
  | _, [] => []
  | 0, _ => []
  | f + 1, c :: r =>
    match tryCreateTableFull (c :: r) with
    | some v => (v.1, v.2.1) :: findCTFuel f v.2.2
    | none => findCTFuel f r

def findCT (s : List Char) : List (List Char × List Char) :=
  findCTFuel s.length s

/-- One anchored attempt of `(\w+)\s+\w+`: captured first token and the
rest after the whole match. -/
def tryPair (s : List Char) : Option (List Char × List Char) :=
  match wordPlus s with
  | none => none
  | some q =>
    match wsPlus q.2 with
    | none => none
    | some r2 =>
      match wordPlus r2 with
      | none => none
      | some q2 => some (q.1, q2.2)

/-- `re.findall(r"(\w+)\s+\w+", table_def)`: the captured first tokens
of the leftmost non-overlapping matches. -/
def findPairsFuel : Nat → List Char → List (List Char)
  | _, [] => []
  | 0, _ => []
  | f + 1, c :: r =>
    match tryPair (c :: r) with
    | some v => v.1 :: findPairsFuel f v.2
    | none => findPairsFuel f r

def findPairs (s : List Char) : List (List Char) :=
  findPairsFuel s.length s

/-- Python dict assignment `tables[name] = entry`: overwrite in place or
append, preserving first-insertion order. -/
def upsert (acc : List (List Char × List (List Char))) (k : List Char)
    (v : List (List Char)) : List (List Char × List (List Char)) :=
  if acc.any (fun e => e.1 = k) then
    acc.map (fun e => if e.1 = k then (k, v) else e)
  else acc ++ [(k, v)]

/-- The `CREATE TABLE` half of `extract_sql`: for every match, the
column list is the first-token capture of each `<identifier> <word>`
pair in the body, capped at 20 (`columns[:20]`).  The `INSERT INTO`
half of the source function only adds `insert_count`/`sample_inserts`
keys and never touches any column list, so it is not modelled. -/
def extract_sql (s : List Char) : List (List Char × List (List Char)) :=
  (findCT s).foldl (fun acc nb => upsert acc nb.1 ((findPairs nb.2).take 20)) []

-- ### query generation (auto_analyzer.generate_sql_with_gemini)

/-- `str.lower()` over ASCII. -/
def lcChar (c : Char) : Char :=
  if 65 ≤ c.toNat && c.toNat ≤ 90 then Char.ofNat (c.toNat + 32) else c

def py_lower (s : String) : String := String.mk (s.data.map lcChar)

/-- The reduced schema view handed to the generator:
`{"columns": [...], "table_name": "..."}`. -/
structure SchemaContext where
  columns : List String
  table_name : String

/-- Python `str.strip()` on a character list. -/
def pyStrip (s : List Char) : List Char :=
  ((s.dropWhile isWsChar).reverse.dropWhile isWsChar).reverse

/-- Python `str.split(sub)` for a nonempty separator: exact,
case-sensitive, non-overlapping, left to right; empty pieces kept. -/
def startsWithExact : List Char → List Char → Bool
  | [], _ => true
  | _ :: _, [] => false
  | p :: ps, c :: cs => p = c && startsWithExact ps cs

def splitOnSubFuel (pat : List Char) : Nat → List Char → List Char → List (List Char)
  | _, acc, [] => [acc.reverse]
  | 0, acc, s => [acc.reverse ++ s]
  | f + 1, acc, c :: r =>
    if startsWithExact pat (c :: r) then
      acc.reverse :: splitOnSubFuel pat f [] (List.drop pat.length (c :: r))
    else splitOnSubFuel pat f (c :: acc) r

def splitOnSub (pat s : List Char) : List (List Char) :=
  splitOnSubFuel pat s.length [] s

/-- The post-processing of a successful model response in
`generate_sql_with_gemini`: strip; unwrap a leading ``` fence (with an
optional `sql` tag); strip; append `;` when missing. -/
def postprocess_model_sql (resp : String) : String :=
  let sq := pyStrip resp.toList
  let sq :=
    if startsWithExact "```".toList sq then
      let piece := (splitOnSub "```".toList sq).getD 1 []
      if startsWithExact "sql".toList piece then piece.drop 3 else piece
    else sq
  let sq := pyStrip sq
  let sq := if sq.getLast? = some ';' then sq else sq ++ [';']
  String.mk sq

/-- `generate_sql_with_gemini(nl_query, schema_context, gemini_key)`.
The interaction with the external model inside the `try` block is the
one non-deterministic step and is passed in as `model_response`:
`some text` is a response whose `.text.strip()` post-processing then
runs, `none` is any raised exception (configure/model/call failure),
which lands in the `except` handler.  Note the handler returns the
row-count query without consulting the column list (its `cols` variable
is computed but unused in the source). -/
def generate_sql_with_gemini (nl_query : String)
    (schema_context : SchemaContext) (gemini_key : String)
    (model_response : Option String) : String :=
  if gemini_key = "" then
    if (schema_context.columns.map py_lower).contains "marks" then
      "SELECT AVG(marks) AS average_marks FROM " ++
        schema_context.table_name ++ ";"
    else
      "SELECT COUNT(*) AS row_count FROM " ++ schema_context.table_name ++ ";"
  else
    match model_response with
    | some text => postprocess_model_sql text
    | none =>
      "SELECT COUNT(*) AS row_count FROM " ++ schema_context.table_name ++ ";"

-- ### query execution payload (app.generate_sql, result handling)

/-- A result row: column name to (stringified) scalar. -/
def ResultRow : Type := List (String × String)

/-- The two response payloads the endpoint can produce for a generated
query: `{"sql": ..., "result": rows}` on success and
`{"sql": ..., "error": msg}` (HTTP 500) on execution failure. -/
inductive QueryResponse where
  | success : String → List ResultRow → QueryResponse
  | failure : String → String → QueryResponse

/-- Executing the generated SQL in `generate_sql` (app.py): the engine
call either yields rows or raises with message `e`; the handler wraps
the message as `f"SQL execution failed: {str(e)}"` and keeps the
attempted query text. -/
def run_generated_sql (sql_query : String)
    (engine_result : Except String (List ResultRow)) : QueryResponse :=
  match engine_result with
  | Except.ok rows => QueryResponse.success sql_query rows
  | Except.error e =>
      QueryResponse.failure sql_query ("SQL execution failed: " ++ e)

-- ### CSV extraction (file_extraction.extract_csv)

/-- The descriptor `extract_csv` builds for a parsed CSV. -/
structure ExtractedCsv where
  columns : List String
  rows : List ResultRow
  row_count : Nat

/-- `extract_csv`, over the parsed form of the file: `header` is the
header row (`df.columns`), `data_rows` are all data rows in file order
(`pd.read_csv` materializes every row).  The function returns the
header, the first 10 rows (`df.head(10)`), and the total row count
(`len(df)`). -/
def extract_csv (header : List String) (data_rows : List ResultRow) :
    ExtractedCsv :=
  { columns := header, rows := data_rows.take 10, row_count := data_rows.length }

-- ### the DDL statement loop (auto_analyzer.load_sql_schema_into_sqlite)

/-- `sql_text.split(";")`. -/
def splitOnChar (sep : Char) : List Char → List Char → List (List Char)
  | acc, [] => [acc.reverse]
  | acc, c :: r =>
    if c = sep then acc.reverse :: splitOnChar sep [] r
    else splitOnChar sep (c :: acc) r

/-- The statements the loop attempts: split the translated text on `;`,
strip each piece, keep the nonempty ones not starting with `--`. -/
def sql_statements (text : List Char) : List (List Char) :=
  ((splitOnChar ';' [] text).map pyStrip).filter
    (fun s => !(s.isEmpty) && !(startsWithExact "--".toList s))

/-- The `for stmt in sql_text.split(";")` loop: each kept statement is
attempted against the engine; `except Exception: pass` records the
failure and continues with the next statement. -/
def execLoopAux (engine : List Char → Except String Unit) :
    List (List Char) → List (List Char × Except String Unit)
  | [] => []
  | st :: rest =>
    match engine st with
    | Except.ok u => (st, Except.ok u) :: execLoopAux engine rest
    | Except.error e => (st, Except.error e) :: execLoopAux engine rest

/-- `load_sql_schema_into_sqlite`'s observable behaviour on the
engine: translate the file text, split it into statements and attempt
each in order, never propagating a statement failure. -/
def load_sql_schema_into_sqlite (engine : List Char → Except String Unit)
    (file_text : List Char) : List (List Char × Except String Unit) :=
  execLoopAux engine (sql_statements (dialect_translate file_text))

-- ### lemmas for table-name inference

theorem searchCT_cons_none {c : Char} {r : List Char}
    (h : tryCreateTable (c :: r) = none) :
    searchCT (c :: r) = searchCT r := by
  simp only [searchCT, h]

theorem searchCT_append {p rest : List Char}
    (h : noCTWithin p rest = true) :
    searchCT (p ++ rest) = searchCT rest := by
  induction p with
  | nil => rfl
  | cons c p' ih =>
    simp only [noCTWithin, Bool.and_eq_true, Bool.not_eq_true'] at h
    have hnone := isSome_false_eq_none h.1
    rw [List.cons_append, searchCT_cons_none hnone]
    exact ih h.2

/-- Evaluation of one pattern attempt when the optional
`IF NOT EXISTS` group is absent and cannot spuriously match. -/
theorem tryCreateTable_eval_plain {a w t s : List Char}
    (ha : ciMatches a "CREATE TABLE".toList = true)
    (hw : w ≠ []) (hwa : w.all isWsChar = true)
    (ht : t ≠ []) (hta : t.all isWordChar = true)
    (hs : headNot isWordChar s = true)
    (hine : matchLit "IF NOT EXISTS".toList (t ++ s) = none) :
    tryCreateTable (a ++ (w ++ (t ++ s))) = some t := by
  have h1 := matchLit_ciMatches (s := w ++ (t ++ s)) ha
  have h2 := wsPlus_of_all hw hwa (headNot_ws_of_word ht hta s)
  have h3 := wordPlus_of_all ht hta hs
  unfold tryCreateTable
  simp only [h1, h2, hine, h3]

/-- Evaluation of one pattern attempt when the optional
`IF NOT EXISTS` group is present. -/
theorem tryCreateTable_eval_ine {a w i w2 t s : List Char}
    (ha : ciMatches a "CREATE TABLE".toList = true)
    (hw : w ≠ []) (hwa : w.all isWsChar = true)
    (hi : ciMatches i "IF NOT EXISTS".toList = true)
    (hw2 : w2 ≠ []) (hw2a : w2.all isWsChar = true)
    (ht : t ≠ []) (hta : t.all isWordChar = true)
    (hs : headNot isWordChar s = true) :
    tryCreateTable (a ++ (w ++ (i ++ (w2 ++ (t ++ s))))) = some t := by
  have h1 := matchLit_ciMatches (s := w ++ (i ++ (w2 ++ (t ++ s)))) ha
  have h2 := wsPlus_of_all hw hwa
    (headNot_ws_of_ciMatches (c := 'I') hi (by decide) (w2 ++ (t ++ s)))
  have h3 := matchLit_ciMatches (s := w2 ++ (t ++ s)) hi
  have h4 := wsPlus_of_all hw2 hw2a (headNot_ws_of_word ht hta s)
  have h5 := wordPlus_of_all ht hta hs
  unfold tryCreateTable
  simp only [h1, h2, h3, h4, h5]

theorem tryCreateTable_none_of_lit {s : List Char}
    (h : matchLit "CREATE TABLE".toList s = none) :
    tryCreateTable s = none := by
  unfold tryCreateTable
  simp only [h]

theorem searchCT_none_of_no_lit {s : List Char}
    (h : hasHit (matchLit "CREATE TABLE".toList) s = false) :
    searchCT s = none := by
  induction s with
  | nil => rfl
  | cons c r ih =>
    simp only [hasHit, Bool.or_eq_false_iff] at h
    have hnone := tryCreateTable_none_of_lit (isSome_false_eq_none h.1)
    rw [searchCT_cons_none hnone]
    exact ih h.2

-- ### lemmas for extract_sql column tokens

theorem wordPlus_fst {s : List Char} {q : List Char × List Char}
    (h : wordPlus s = some q) : q.1 ≠ [] ∧ q.1.all isWordChar = true := by
  simp only [wordPlus] at h
  by_cases hq : (spanP isWordChar s).1 = []
  · simp [hq] at h
  · simp only [hq, if_false, Option.some.injEq] at h
    rw [← h]
    exact ⟨hq, spanP_all isWordChar s⟩

theorem tryPair_fst {s : List Char} {v : List Char × List Char}
    (h : tryPair s = some v) : v.1 ≠ [] ∧ v.1.all isWordChar = true := by
  unfold tryPair at h
  cases h1 : wordPlus s with
  | none => simp only [h1] at h; exact absurd h (Option.noConfusion ·)
  | some q =>
    simp only [h1] at h
    cases h2 : wsPlus q.2 with
    | none => simp only [h2] at h; exact absurd h (Option.noConfusion ·)
    | some r2 =>
      simp only [h2] at h
      cases h3 : wordPlus r2 with
      | none => simp only [h3] at h; exact absurd h (Option.noConfusion ·)
      | some q2 =>
        simp only [h3, Option.some.injEq] at h
        have := wordPlus_fst h1
        rw [← h]
        exact this

theorem findPairsFuel_tokens :
    ∀ (f : Nat) (s : List Char) (tok : List Char),
      tok ∈ findPairsFuel f s → tok ≠ [] ∧ tok.all isWordChar = true := by
  intro f
  induction f with
  | zero =>
    intro s tok h
    cases s <;> simp [findPairsFuel] at h
  | succ f ih =>
    intro s tok h
    cases s with
    | nil => simp [findPairsFuel] at h
    | cons c r =>
      simp only [findPairsFuel] at h
      cases hv : tryPair (c :: r) with
      | none =>
        simp only [hv] at h
        exact ih r tok h
      | some v =>
        simp only [hv, List.mem_cons] at h
        cases h with
        | inl he => rw [he]; exact tryPair_fst hv
        | inr hm => exact ih v.2 tok hm

/-- The property C7 asserts per table entry (in amended form). -/
def GoodColumns (cols : List (List Char)) : Prop :=
  cols.length ≤ 20 ∧ ∀ col ∈ cols, col ≠ [] ∧ col.all isWordChar = true

theorem goodColumns_of_pairs (b : List Char) :
    GoodColumns ((findPairs b).take 20) := by
  constructor
  · exact (List.length_take 20 (findPairs b)) ▸ min_le_left _ _
  · intro col hcol
    exact findPairsFuel_tokens _ _ col (List.mem_of_mem_take hcol)

theorem upsert_inv {acc : List (List Char × List (List Char))}
    {k : List Char} {v : List (List Char)}
    (hacc : ∀ e ∈ acc, GoodColumns e.2) (hv : GoodColumns v) :
    ∀ e ∈ upsert acc k v, GoodColumns e.2 := by
  intro e he
  unfold upsert at he
  by_cases hmem : acc.any (fun e => e.1 = k) = true
  · rw [if_pos hmem, List.mem_map] at he
    obtain ⟨x, hx, hxe⟩ := he
    by_cases hk : x.1 = k
    · rw [if_pos hk] at hxe
      rw [← hxe]
      exact hv
    · rw [if_neg hk] at hxe
      rw [← hxe]
      exact hacc x hx
  · rw [if_neg hmem, List.mem_append] at he
    rcases he with hin | heq
    · exact hacc e hin
    · rw [List.mem_singleton] at heq
      rw [heq]
      exact hv

theorem extract_sql_foldl_inv :
    ∀ (ms : List (List Char × List Char))
      (acc : List (List Char × List (List Char))),
      (∀ e ∈ acc, GoodColumns e.2) →
      ∀ e ∈ ms.foldl
          (fun acc nb => upsert acc nb.1 ((findPairs nb.2).take 20)) acc,
        GoodColumns e.2 := by
  intro ms
  induction ms with
  | nil => intro acc hacc e he; exact hacc e he
  | cons nb ms ih =>
    intro acc hacc e he
    simp only [List.foldl_cons] at he
    exact ih _ (upsert_inv hacc (goodColumns_of_pairs nb.2)) e he

-- ### helper lemmas for the claims

theorem searchCT_cons_some {c : Char} {r t : List Char}
    (h : tryCreateTable (c :: r) = some t) :
    searchCT (c :: r) = some t := by
  simp only [searchCT, h]

theorem execLoopAux_fst (engine : List Char → Except String Unit) :
    ∀ sts, (execLoopAux engine sts).map Prod.fst = sts := by
  intro sts
  induction sts with
  | nil => rfl
  | cons st rest ih =>
    cases hE : engine st with
    | ok u => simp [execLoopAux, hE, ih]
    | error e => simp [execLoopAux, hE, ih]

theorem sql_statements_mem {text st : List Char}
    (h : st ∈ sql_statements text) :
    st ≠ [] ∧ startsWithExact "--".toList st = false := by
  unfold sql_statements at h
  rw [List.mem_filter] at h
  have h2 := h.2
  simp only [Bool.and_eq_true, Bool.not_eq_true'] at h2
  refine ⟨?_, h2.2⟩
  intro hnil
  rw [hnil] at h2
  exact absurd h2.1 (by decide)

-- ### the claims

/-- C1: with no model credential configured (empty key),
`generate_sql_with_gemini` returns exactly the `AVG(marks)` query when
the column list contains a case-insensitive match for `marks`, and
exactly the `COUNT(*)` query otherwise, over the context's table name;
the natural-language text (and any would-be model response) has no
influence on the output. -/
theorem C1_no_credential_heuristic (nl nl2 : String) (ctx : SchemaContext)
    (mr mr2 : Option String) :
    generate_sql_with_gemini nl ctx "" mr =
      (if (ctx.columns.map py_lower).contains "marks" then
        "SELECT AVG(marks) AS average_marks FROM " ++ ctx.table_name ++ ";"
      else "SELECT COUNT(*) AS row_count FROM " ++ ctx.table_name ++ ";")
    ∧ generate_sql_with_gemini nl ctx "" mr =
        generate_sql_with_gemini nl2 ctx "" mr2 := by
  constructor <;> simp [generate_sql_with_gemini]

/-- C2 counterexample: with a credential present and the model call
raising an exception, the column list contains `marks` and yet the
fallback is the row-count query, not the averaging query required by
the claim. -/
theorem C2_counterexample :
    generate_sql_with_gemini "average marks"
        ⟨["marks"], "uploaded_table"⟩ "key" none
      = "SELECT COUNT(*) AS row_count FROM uploaded_table;"
    ∧ generate_sql_with_gemini "average marks"
        ⟨["marks"], "uploaded_table"⟩ "key" none
      ≠ "SELECT AVG(marks) AS average_marks FROM uploaded_table;" := by
  constructor
  · decide
  · decide

/-- C2 (amended): when a model credential is present and the model call
raises any exception, generation does not propagate it and returns the
row-count query over the context's table name — regardless of whether
the column list contains `marks` (the exception handler computes `cols`
but never consults it). -/
theorem C2_exception_fallback (nl : String) (ctx : SchemaContext)
    (key : String) (hkey : key ≠ "") :
    generate_sql_with_gemini nl ctx key none =
      "SELECT COUNT(*) AS row_count FROM " ++ ctx.table_name ++ ";" := by
  simp [generate_sql_with_gemini, hkey]

theorem C2_exception_fallback_witness :
    ("key" : String) ≠ "" ∧
    generate_sql_with_gemini "show average marks"
        ⟨["marks"], "t1"⟩ "key" none
      = "SELECT COUNT(*) AS row_count FROM " ++ "t1" ++ ";" :=
  ⟨by decide,
   C2_exception_fallback "show average marks" ⟨["marks"], "t1"⟩ "key" (by decide)⟩

/-- C3: when execution of the generated query fails with engine message
`e`, the pipeline returns the failure payload carrying the attempted
query text unchanged together with a non-empty error message derived
from `e`, and this payload is distinct from every success payload (in
particular it is never an empty result list). -/
theorem C3_execution_failure_payload (sql e : String) :
    run_generated_sql sql (Except.error e) =
      QueryResponse.failure sql ("SQL execution failed: " ++ e)
    ∧ ("SQL execution failed: " ++ e) ≠ ""
    ∧ ∀ (sql2 : String) (rows : List ResultRow),
        run_generated_sql sql (Except.error e) ≠
          QueryResponse.success sql2 rows := by
  refine ⟨rfl, ?_, ?_⟩
  · intro hcontra
    obtain ⟨l⟩ := e
    have h0 := congrArg String.data hcontra
    have hd : ("SQL execution failed: " ++ String.mk l).data
        = 'S' :: ("QL execution failed: ".toList ++ l) := rfl
    rw [hd] at h0
    exact List.noConfusion h0
  · intro sql2 rows hcontra
    exact QueryResponse.noConfusion hcontra

theorem C3_execution_failure_payload_witness :
    run_generated_sql "SELECT nope FROM uploaded_table;"
        (Except.error "no such column: nope") =
      QueryResponse.failure "SELECT nope FROM uploaded_table;"
        ("SQL execution failed: " ++ "no such column: nope") :=
  (C3_execution_failure_payload "SELECT nope FROM uploaded_table;"
    "no such column: nope").1

/-- C4 counterexample: the translation is not idempotent.  Translating
`"ALTER TABLE t ADD x; USE d;"` removes the ALTER statement and yields
`" USE d;"`; only the second application drops the exposed `USE` line,
so re-translation gives a different (empty) text. -/
theorem C4_counterexample :
    dialect_translate "ALTER TABLE t ADD x; USE d;".toList = " USE d;".toList
    ∧ dialect_translate
        (dialect_translate "ALTER TABLE t ADD x; USE d;".toList)
      ≠ dialect_translate "ALTER TABLE t ADD x; USE d;".toList := by
  constructor
  · decide
  · decide

/-- C4 (amended): the ordered rewrite chain is idempotent on every input
whose translated output contains no rule hit at all — every line kept
and matching none of the per-line patterns, and none of the whole-text
patterns occurring; unconditional idempotence fails because one rule's
removal can expose text that another rule rewrites only on a second
pass. -/
theorem C4_idempotent_of_no_rule_hits (x : List Char)
    (h : noRuleHits (dialect_translate x) = true) :
    dialect_translate (dialect_translate x) = dialect_translate x :=
  dialect_translate_id h

theorem C4_idempotent_of_no_rule_hits_witness :
    noRuleHits (dialect_translate "CREATE TABLE t (id INT);\n".toList) = true
    ∧ dialect_translate
        (dialect_translate "CREATE TABLE t (id INT);\n".toList)
      = dialect_translate "CREATE TABLE t (id INT);\n".toList :=
  ⟨by decide, C4_idempotent_of_no_rule_hits _ (by decide)⟩

/-- C5: for every parsed tabular input, the extracted column list equals
the header row in literal order, `row_count` equals the total number of
data rows independent of preview truncation, and the preview has length
`min 10 row_count` and consists of the first rows of the file. -/
theorem C5_csv_extraction (header : List String) (data_rows : List ResultRow) :
    (extract_csv header data_rows).columns = header
    ∧ (extract_csv header data_rows).row_count = data_rows.length
    ∧ (extract_csv header data_rows).rows.length = min 10 data_rows.length
    ∧ (extract_csv header data_rows).rows = data_rows.take 10 := by
  refine ⟨rfl, rfl, ?_, rfl⟩
  simp [extract_csv, List.length_take]

/-- C6: for every DDL text of the form
`p ++ ct ++ ws ++ [ine ++ ws] ++ t ++ s` — a first (case-insensitive)
`CREATE TABLE [IF NOT EXISTS] t` statement with no earlier match inside
`p` — table-name inference returns exactly the identifier `t` of that
first statement, regardless of any later `CREATE TABLE` or other
statements inside `s`. -/
theorem C6_infer_first_create_table
    (p a w ine i w2 t s : List Char)
    (hp : noCTWithin p (a ++ (w ++ (ine ++ (t ++ s)))) = true)
    (ha : ciMatches a "CREATE TABLE".toList = true)
    (hw : w ≠ []) (hwa : w.all isWsChar = true)
    (ht : t ≠ []) (hta : t.all isWordChar = true)
    (hs : headNot isWordChar s = true)
    (hcase : (ine = [] ∧ matchLit "IF NOT EXISTS".toList (t ++ s) = none)
      ∨ (ine = i ++ w2 ∧ ciMatches i "IF NOT EXISTS".toList = true
          ∧ w2 ≠ [] ∧ w2.all isWsChar = true)) :
    infer_table_name_from_sql
        (String.mk (p ++ (a ++ (w ++ (ine ++ (t ++ s)))))) = String.mk t := by
  unfold infer_table_name_from_sql
  have hlist : (String.mk (p ++ (a ++ (w ++ (ine ++ (t ++ s)))))).toList
      = p ++ (a ++ (w ++ (ine ++ (t ++ s)))) := rfl
  rw [hlist, searchCT_append hp]
  rcases hcase with ⟨hine, hnm⟩ | ⟨hine, hi, hw2, hw2a⟩
  · subst hine
    simp only [List.nil_append]
    have heval := tryCreateTable_eval_plain ha hw hwa ht hta hs hnm
    cases a with
    | nil => simp [ciMatches] at ha
    | cons c a' =>
      rw [List.cons_append] at heval
      rw [List.cons_append, searchCT_cons_some heval]
  · subst hine
    have heval := tryCreateTable_eval_ine ha hw hwa hi hw2 hw2a ht hta hs
    simp only [List.append_assoc] at heval ⊢
    cases a with
    | nil => simp [ciMatches] at ha
    | cons c a' =>
      rw [List.cons_append] at heval
      rw [List.cons_append, searchCT_cons_some heval]

theorem C6_infer_first_create_table_witness :
    infer_table_name_from_sql
        (String.mk ("-- school dump\n".toList ++ ("CREATE TABLE".toList ++
          (" ".toList ++ ([] ++ ("students".toList ++
            " (id INT); CREATE TABLE other (y INT);".toList))))))
      = String.mk "students".toList :=
  C6_infer_first_create_table "-- school dump\n".toList "CREATE TABLE".toList
    " ".toList [] [] [] "students".toList
    " (id INT); CREATE TABLE other (y INT);".toList
    (by decide) (by decide) (by decide) (by decide) (by decide) (by decide)
    (by decide) (Or.inl ⟨rfl, by decide⟩)

/-- C7 counterexample: on
`CREATE TABLE t (id INT, PRIMARY KEY (id));` the extracted column list
is `["id", "PRIMARY"]` — the `PRIMARY KEY` constraint clause contributes
the spurious entry `PRIMARY`, contradicting the claim that
constraint-only fragments contribute no column entries. -/
theorem C7_counterexample :
    extract_sql "CREATE TABLE t (id INT, PRIMARY KEY (id));".toList
      = [("t".toList, ["id".toList, "PRIMARY".toList])]
    ∧ "PRIMARY".toList ∈
        ((extract_sql "CREATE TABLE t (id INT, PRIMARY KEY (id));".toList).getD
          0 ([], [])).2 := by
  constructor
  · decide
  · decide

/-- C7 (amended): for every DDL text, each table entry produced by
schema extraction has a column list of at most 20 entries, each entry a
nonempty identifier token taken as the first token of a two-token
`<identifier> <word>` occurrence in the statement body; constraint
clauses are NOT ignored — their leading keyword (e.g. `PRIMARY`) becomes
a column entry like any other. -/
theorem C7_extract_sql_columns (s : List Char)
    (e : List Char × List (List Char)) (he : e ∈ extract_sql s) :
    e.2.length ≤ 20 ∧ ∀ col ∈ e.2, col ≠ [] ∧ col.all isWordChar = true := by
  unfold extract_sql at he
  exact extract_sql_foldl_inv (findCT s) []
    (fun x hx => absurd hx (List.not_mem_nil x)) e he

theorem C7_extract_sql_columns_witness :
    ("t".toList, ["id".toList, "PRIMARY".toList]) ∈
        extract_sql "CREATE TABLE t (id INT, PRIMARY KEY (id));".toList
    ∧ (["id".toList, "PRIMARY".toList] : List (List Char)).length ≤ 20 :=
  ⟨by decide,
   (C7_extract_sql_columns "CREATE TABLE t (id INT, PRIMARY KEY (id));".toList
     ("t".toList, ["id".toList, "PRIMARY".toList]) (by decide)).1⟩

/-- C8 counterexample: the translator's output can still contain an
`ALTER TABLE ... ADD ...;` statement: removing the matched statement
from `"ALTER TAALTER TABLE t ADD x;BLE v ADD y;"` splices the
surrounding text into the new statement `"ALTER TABLE v ADD y;"`,
which the single substitution pass does not revisit. -/
theorem C8_counterexample :
    dialect_translate "ALTER TAALTER TABLE t ADD x;BLE v ADD y;".toList
      = "ALTER TABLE v ADD y;".toList
    ∧ hasHit mAlterAdd
        (dialect_translate "ALTER TAALTER TABLE t ADD x;BLE v ADD y;".toList)
      = true := by
  constructor
  · decide
  · decide

/-- C8 (amended): every `ALTER TABLE ... ADD ...;` statement and every
`CREATE INDEX ...;` statement present in the text at its removal stage
is removed wholesale — the output is the surrounding text with the
statement excised — but the output is not guaranteed to be free of such
statements, because the excision can concatenate the surroundings into
a new one. -/
theorem C8_statement_removal :
    (∀ p a w1 t w2 d b s : List Char,
      noHitWithin mAlterAdd p
          (a ++ (w1 ++ (t ++ (w2 ++ (d ++ (b ++ ';' :: s)))))) = true →
      ciMatches a "ALTER TABLE".toList = true →
      w1 ≠ [] → w1.all isWsChar = true →
      t ≠ [] → t.all isWordChar = true →
      w2 ≠ [] → w2.all isWsChar = true →
      ciMatches d "ADD".toList = true →
      b.all (fun x => !(x = ';')) = true →
      subst mAlterAdd []
          (p ++ (a ++ (w1 ++ (t ++ (w2 ++ (d ++ (b ++ ';' :: s)))))))
        = p ++ subst mAlterAdd [] s)
    ∧ (∀ p a b s : List Char,
      noHitWithin mCreateIndex p (a ++ (b ++ ';' :: s)) = true →
      ciMatches a "CREATE INDEX".toList = true →
      b.all (fun x => !(x = ';')) = true →
      subst mCreateIndex [] (p ++ (a ++ (b ++ ';' :: s)))
        = p ++ subst mCreateIndex [] s) := by
  constructor
  · intro p a w1 t w2 d b s hp ha hw1 hw1a ht hta hw2 hw2a hd hb
    rw [subst_append_noHit hp,
      subst_match mAlterAdd_shrinks
        (mAlterAdd_eval ha hw1 hw1a ht hta hw2 hw2a hd hb)]
    simp
  · intro p a b s hp ha hb
    rw [subst_append_noHit hp,
      subst_match mCreateIndex_shrinks (mCreateIndex_eval ha hb)]
    simp

theorem C8_statement_removal_witness :
    (subst mAlterAdd []
        ("x; ".toList ++ ("alter table".toList ++ (" ".toList ++
          ("t".toList ++ (" ".toList ++ ("add".toList ++
            (" c INT".toList ++ ';' :: " rest".toList)))))))
      = "x; ".toList ++ subst mAlterAdd [] " rest".toList)
    ∧ (subst mCreateIndex []
        ("y; ".toList ++ ("create index".toList ++
          (" i ON t(x)".toList ++ ';' :: " tail".toList)))
      = "y; ".toList ++ subst mCreateIndex [] " tail".toList) :=
  ⟨C8_statement_removal.1 "x; ".toList "alter table".toList " ".toList
     "t".toList " ".toList "add".toList " c INT".toList " rest".toList
     (by decide) (by decide) (by decide) (by decide) (by decide) (by decide)
     (by decide) (by decide) (by decide) (by decide),
   C8_statement_removal.2 "y; ".toList "create index".toList
     " i ON t(x)".toList " tail".toList (by decide) (by decide) (by decide)⟩

/-- C9: on the DDL load path, every nonempty, non-comment sanitized
statement is attempted in order against the engine; the attempted
sequence equals the sanitized statement list whatever the engine does
(so no statement failure prevents the remaining attempts), the loop is
total (failures are absorbed, never raised), and every attempted
statement is nonempty and not a `--` comment. -/
theorem C9_load_attempts_all (engine engine2 : List Char → Except String Unit)
    (file_text : List Char) :
    (load_sql_schema_into_sqlite engine file_text).map Prod.fst
      = sql_statements (dialect_translate file_text)
    ∧ (load_sql_schema_into_sqlite engine file_text).map Prod.fst
      = (load_sql_schema_into_sqlite engine2 file_text).map Prod.fst
    ∧ ∀ st ∈ (load_sql_schema_into_sqlite engine file_text).map Prod.fst,
        st ≠ [] ∧ startsWithExact "--".toList st = false := by
  refine ⟨execLoopAux_fst engine _, ?_, ?_⟩
  · exact (execLoopAux_fst engine _).trans (execLoopAux_fst engine2 _).symm
  · intro st hst
    rw [show (load_sql_schema_into_sqlite engine file_text).map Prod.fst
        = sql_statements (dialect_translate file_text)
      from execLoopAux_fst engine _] at hst
    exact sql_statements_mem hst

theorem C9_load_attempts_all_witness :
    (load_sql_schema_into_sqlite (fun _ => Except.error "table exists")
        "CREATE TABLE a (x INT); nonsense; -- note\nCREATE TABLE b (y INT);".toList).map
      Prod.fst
      = sql_statements (dialect_translate
          "CREATE TABLE a (x INT); nonsense; -- note\nCREATE TABLE b (y INT);".toList) :=
  (C9_load_attempts_all (fun _ => Except.error "table exists")
    (fun _ => Except.ok ())
    "CREATE TABLE a (x INT); nonsense; -- note\nCREATE TABLE b (y INT);".toList).1

/-- C10: for every input text containing no case-insensitive occurrence
of `CREATE TABLE`, table-name inference is total and returns the fixed
default `uploaded_table`; it never returns an empty string. -/
theorem C10_infer_default (s : String)
    (h : hasHit (matchLit "CREATE TABLE".toList) s.toList = false) :
    infer_table_name_from_sql s = "uploaded_table"
    ∧ infer_table_name_from_sql s ≠ "" := by
  have hnone := searchCT_none_of_no_lit h
  constructor
  · unfold infer_table_name_from_sql
    rw [hnone]
  · unfold infer_table_name_from_sql
    rw [hnone]
    decide

theorem C10_infer_default_witness :
    hasHit (matchLit "CREATE TABLE".toList) "SELECT 1;".toList = false
    ∧ infer_table_name_from_sql "SELECT 1;" = "uploaded_table" :=
  ⟨by decide, (C10_infer_default "SELECT 1;" (by decide)).1⟩
